import Mathlib

/-!
Verification of the UCI engine driver (`src/90_engine.js`) of the nibbler
repository.  The driver is embedded shallowly: JavaScript objects become Lean
structures, object identity becomes a serial number (`id` field) assigned at
construction, and every driver method becomes a pure function from the engine
state to a new state together with the list of observable events it produced
(stdin writes, host acknowledgements, hub callbacks, log lines).
-/

set_option maxRecDepth 4000

namespace Nibbler

/-! ## JavaScript string primitives

The driver manipulates protocol lines with JavaScript string methods
(`trim`, `toLowerCase`, `indexOf`, `slice`, `startsWith`, `includes`).
They are modelled character-exactly on `String.data`. -/

/-- Model of JavaScript `String.prototype.toLowerCase` (ASCII letters). -/
def jsToLower (s : String) : String :=
  ⟨s.data.map Char.toLower⟩

/-- Strip whitespace characters from the front and the back of a char list. -/
def trimChars (l : List Char) : List Char :=
  ((l.dropWhile Char.isWhitespace).reverse.dropWhile Char.isWhitespace).reverse

/-- Model of JavaScript `String.prototype.trim`. -/
def jsTrim (s : String) : String :=
  ⟨trimChars s.data⟩

/-- Model of JavaScript `String.prototype.startsWith`. -/
def jsStartsWith (s pre : String) : Bool :=
  pre.data.isPrefixOf s.data

/-- Index (in characters) of the first occurrence of `pat` in the list, if any. -/
def firstSubIdx (pat : List Char) : List Char → Option Nat
  | [] => if pat.isPrefixOf ([] : List Char) then some 0 else none
  | c :: t =>
    if pat.isPrefixOf (c :: t) then some 0
    else (firstSubIdx pat t).map (· + 1)

/-- Model of JavaScript `String.prototype.indexOf`, as an `Option` instead of `-1`. -/
def jsIndexOf (s pat : String) : Option Nat :=
  firstSubIdx pat.data s.data

/-- Model of JavaScript `String.prototype.includes`. -/
def jsIncludes (s pat : String) : Bool :=
  (jsIndexOf s pat).isSome

/-- Model of JavaScript `String.prototype.slice(a, b)` for non-negative bounds. -/
def jsSlice (s : String) (a b : Nat) : String :=
  ⟨(s.data.drop a).take (b - a)⟩

/-- Model of JavaScript `String.prototype.slice(a)` for a non-negative bound. -/
def jsSliceFrom (s : String) (a : Nat) : String :=
  ⟨s.data.drop a⟩

/-- Model of JavaScript `Array.prototype.join(" ")`. -/
def jsJoin (l : List String) : String :=
  String.intercalate " " l

/-- JavaScript falsiness of an optional number: `null` and `0` are falsy. -/
def jsFalsyNat : Option Nat → Bool
  | none => true
  | some k => k == 0

/-! ## Data model -/

/-- A node of the hub game tree, as far as the driver observes it.
`id` models JavaScript object identity.  `root_fen_classical` is
`node.get_root().board.fen(true)` and `root_fen_960` is
`node.get_root().board.fen(false)`; `graphic` is `node.board.graphic()`,
`terminal_reason` the string returned by `node.terminal_reason()` (truthy iff
non-empty), and `legal_moves` the set of move tokens the node accepts. -/
structure Node where
  id : Nat
  destroyed : Bool
  terminal_reason : String
  root_fen_classical : String
  root_fen_960 : String
  history : List String
  history_old_format : List String
  legal_moves : List String
  graphic : String
deriving DecidableEq, Repr

/-- Modelled from the spec: `node.validate_searchmoves(searchmoves)` is not in
`src/` (it lives in the hub's chess model); the spec says it returns a fresh
sequence containing only moves legal in that position, so it is embedded as a
filter of the given sequence against the node's legal moves. -/
def Node.validate_searchmoves (n : Node) (searchmoves : List String) : List String :=
  searchmoves.filter (fun m => n.legal_moves.contains m)

/-- A requested search.  `id` models JavaScript object identity: the shared
`NoSearch` sentinel has id 0, and every non-empty `SearchParams` receives a
fresh serial at construction. -/
structure SearchParams where
  id : Nat
  node : Option Node
  limit : Option Nat
  searchmoves : List String
deriving DecidableEq, Repr

/-- The frozen `NoSearch` sentinel of `90_engine.js`. -/
def NoSearch : SearchParams :=
  { id := 0, node := none, limit := none, searchmoves := [] }

/-- The `SearchParams` constructor function of `90_engine.js`.  `fresh` is the
serial number modelling the identity of the newly allocated object; it is not
consumed when the node is empty, since in that case the shared `NoSearch`
sentinel is returned without allocating.  `searchmoves = none` models passing
a non-array (the `Array.isArray` test). -/
def SearchParams.make (fresh : Nat) (node : Option Node) (limit : Option Nat)
    (searchmoves : Option (List String)) : SearchParams :=
  match node with
  | none => NoSearch
  | some n =>
    let validated := match searchmoves with
      | some sm => n.validate_searchmoves sm
      | none => []
    { id := fresh, node := some n, limit := limit, searchmoves := validated }

/-- JavaScript identity (`===`) of two `SearchParams` objects. -/
def identSP (a b : SearchParams) : Bool :=
  a.id == b.id

/-- JavaScript identity (`===`) of two possibly-null node references. -/
def identOptNode : Option Node → Option Node → Bool
  | none, none => true
  | some a, some b => a.id == b.id
  | _, _ => false

/-- Modelled from the spec: the `CompareArrays` utility is not in `src/`;
per the spec's equality discipline it is element-wise equality of the two
sequences, which on Lean lists is list equality. -/
def CompareArrays (a b : List String) : Bool :=
  a == b

/-- The configuration fields the driver reads. -/
structure Config where
  log_positions : Bool
  log_info_lines : Bool
  use_movetime : Bool
  searchmoves_buttons : Bool
deriving DecidableEq, Repr

/-- Observable events produced by a driver call, in order of occurrence. -/
inductive Event where
  /-- A line written to the subprocess's stdin (`this.exe.stdin.write`). -/
  | stdin_write (line : String)
  /-- An `ack_setoption` message to the host's main process. -/
  | ack_setoption (key : String) (val : String)
  /-- The hub callback `hub.receive_bestmove(line, node)`. -/
  | receive_bestmove (line : String) (node : Option Node)
  /-- The hub callback `hub.info_handler.receive(this, node, line)`. -/
  | info_receive (node : Option Node) (line : String)
  /-- A `Log(...)` call. -/
  | log (s : String)
deriving DecidableEq, Repr

/-- The mutable state of one engine driver (`NewEngine`), including the two
cycle counters that live on `hub.info_handler` but are only written by the
driver.  `exe` records whether a subprocess is loaded; writes to its stdin
are modelled as `Event.stdin_write` (the non-failing execution). -/
structure Engine where
  exe : Bool
  last_send : Option String
  unresolved_stop_time : Option Nat
  ever_received_uciok : Bool
  ever_received_readyok : Bool
  have_quit : Bool
  suppress_cycle_info : Option Nat
  sent_options : List (String × String)
  setoption_queue : List String
  warned_send_fail : Bool
  leelaish : Bool
  search_running : SearchParams
  search_desired : SearchParams
  search_completed : SearchParams
  engine_cycle : Nat
  engine_subcycle : Nat
deriving DecidableEq, Repr

/-- Association-list lookup for `sent_options` (newest record first). -/
def lookupOpt (m : List (String × String)) (key : String) : Option String :=
  (m.find? (fun p => p.1 == key)).map (fun p => p.2)

/-- JavaScript property assignment `this.sent_options[key] = val`. -/
def recordOpt (m : List (String × String)) (key val : String) : List (String × String) :=
  (key, val) :: m

/-- The `in_960_mode` method: the stored value for `uci_chess960` is the
string `"true"`. -/
def Engine.in_960_mode (e : Engine) : Bool :=
  lookupOpt e.sent_options "uci_chess960" == some "true"

/-- The `send_ack_setoption_to_main_process` method: lowercase the key and ack
the recorded value, or the empty string when none was ever recorded. -/
def Engine.send_ack_setoption_to_main_process (e : Engine) (name : String) : Event :=
  Event.ack_setoption (jsToLower name) ((lookupOpt e.sent_options (jsToLower name)).getD "")

/-- The `name <N> value <V>` parse performed by `send` on a `setoption` line:
find `name` and `value` in the lowercased line, in that order, and extract the
lowercased key and the case-preserved value; the parse succeeds only when the
key is non-empty. -/
def parseSetoption (msg : String) : Option (String × String) :=
  let lower := jsToLower msg
  match jsIndexOf lower "name", jsIndexOf lower "value" with
  | some i1, some i2 =>
    if i1 < i2 then
      let key := jsTrim (jsSlice lower (i1 + 5) (i2 - 1))
      let val := jsTrim (jsSliceFrom msg (i2 + 6))
      if key.length > 0 then some (key, val) else none
    else none
  | _, _ => none

/-- The `send` method.  Trims the message; a `setoption` line is queued when a
search is running and `force` is not set, and otherwise recorded in
`sent_options` and acked when it parses; then the line is written to the
subprocess's stdin if one is loaded. -/
def Engine.send (e : Engine) (msg : String) (force : Bool) : Engine × List Event :=
  let m := jsTrim msg
  if jsStartsWith m "setoption" then
    if e.search_running.node.isSome && !force then
      ({ e with setoption_queue := e.setoption_queue ++ [m] }, [])
    else
      let r1 :=
        match parseSetoption m with
        | some (key, val) =>
          let e' := { e with sent_options := recordOpt e.sent_options key val }
          (e', [e'.send_ack_setoption_to_main_process key])
        | none => (e, ([] : List Event))
      if !r1.1.exe then r1
      else ({ r1.1 with last_send := some m },
            r1.2 ++ [Event.stdin_write m, Event.log ("--> " ++ m)])
  else
    if !e.exe then (e, [])
    else ({ e with last_send := some m },
          [Event.stdin_write m, Event.log ("--> " ++ m)])

/-- The standard initial position FEN, as it appears in `send_desired`. -/
def startposFEN : String :=
  "rnbqkbnr/pppppppp/8/8/8/8/PPPPPPPP/RNBQKBNR w KQkq - 0 1"

/-- The body of `send_desired` after its guard (the guard throws when
`search_running.node` is set; see `Engine.send_desired`).  Abandons a search
whose desired node is empty, destroyed or terminal; otherwise emits the
`position` command, then the `go` command, and installs the desired search as
the running one while bumping the cycle counters. -/
def Engine.send_desired_ok (e : Engine) (cfg : Config) : Engine × List Event :=
  match e.search_desired.node with
  | none => ({ e with search_running := NoSearch, search_desired := NoSearch }, [])
  | some node =>
    if node.destroyed || node.terminal_reason != "" then
      ({ e with search_running := NoSearch, search_desired := NoSearch }, [])
    else
      let root_fen := if e.in_960_mode then node.root_fen_960 else node.root_fen_classical
      let setup0 := "fen " ++ root_fen
      let setup :=
        if !e.in_960_mode && setup0 == "fen " ++ startposFEN then "startpos" else setup0
      let moves := if !e.in_960_mode then node.history_old_format else node.history
      let posline :=
        if moves.length == 0 then "position " ++ setup
        else "position " ++ setup ++ " moves " ++ jsJoin moves
      let r1 := e.send posline false
      let e1 := r1.1
      let evs1b := if cfg.log_positions then r1.2 ++ [Event.log node.graphic] else r1.2
      let n := e1.search_desired.limit
      let s0 :=
        if jsFalsyNat n then "go infinite"
        else if cfg.use_movetime then "go movetime " ++ toString (n.getD 0)
        else "go nodes " ++ toString (n.getD 0)
      let s :=
        if cfg.searchmoves_buttons && e1.search_desired.searchmoves.length > 0 then
          s0 ++ " searchmoves" ++ String.join (e1.search_desired.searchmoves.map (fun m => " " ++ m))
        else s0
      let r2 := e1.send s false
      let e2 := r2.1
      ({ e2 with search_running := e2.search_desired,
                 suppress_cycle_info := none,
                 engine_cycle := e2.engine_cycle + 1,
                 engine_subcycle := e2.engine_subcycle + 1 }, evs1b ++ r2.2)

/-- The `send_desired` method: throws (modelled as `Except.error`) when a
search is running, else runs `send_desired_ok`. -/
def Engine.send_desired (e : Engine) (cfg : Config) : Except String (Engine × List Event) :=
  if e.search_running.node.isSome then
    Except.error "send_desired called but search was running"
  else
    Except.ok (e.send_desired_ok cfg)

/-- The `set_search_desired` method.  `fresh` models the identity of the
`SearchParams` allocated by the call; `now` models `performance.now()`.
No-op before both handshakes, and when the requested parameters already agree
with the desired search (node by identity, limit by `===`, searchmoves by
`CompareArrays`).  Otherwise replaces `desired` and either stops the running
search or starts the new one at once; the direct call site of `send_desired`
satisfies its guard (`search_running.node` is empty in that branch), so the
body `send_desired_ok` is invoked. -/
def Engine.set_search_desired (e : Engine) (cfg : Config) (fresh : Nat) (now : Nat)
    (node : Option Node) (limit : Option Nat) (searchmoves : Option (List String)) :
    Engine × List Event :=
  if !e.ever_received_uciok || !e.ever_received_readyok then (e, [])
  else
    let params := SearchParams.make fresh node limit searchmoves
    if identOptNode e.search_desired.node params.node
        && e.search_desired.limit == params.limit
        && CompareArrays e.search_desired.searchmoves params.searchmoves then
      (e, [])
    else
      let e1 := { e with search_desired := params }
      if e1.search_running.node.isSome then
        let r := e1.send "stop" false
        if jsFalsyNat r.1.unresolved_stop_time then
          ({ r.1 with unresolved_stop_time := some now }, r.2)
        else r
      else
        if e1.search_desired.node.isSome then
          e1.send_desired_ok cfg
        else (e1, [])

/-- Send each line of a list in order through `send` with the force flag set,
threading the state and concatenating the produced events. -/
def sendListForced (e : Engine) : List String → Engine × List Event
  | [] => (e, [])
  | m :: rest =>
    let r1 := e.send m true
    let r2 := sendListForced r1.1 rest
    (r2.1, r1.2 ++ r2.2)

/-- The `send_queued_setoptions` method: send every queued line with the force
flag, then clear the queue. -/
def Engine.send_queued_setoptions (e : Engine) : Engine × List Event :=
  let r := sendListForced e e.setoption_queue
  ({ r.1 with setoption_queue := [] }, r.2)

/-- The `handle_bestmove_line` method.  Records the completed search, clears
`running` and the stop timestamp, then either forwards the line to the hub
(`desired` identical to `completed` with a non-empty node), discards it as
halted, or discards it as old and launches the desired search.  The calls of
`send_desired` here satisfy its guard (`search_running` was just cleared), so
the body `send_desired_ok` is invoked. -/
def Engine.handle_bestmove_line (e : Engine) (cfg : Config) (line : String) :
    Engine × List Event :=
  let e1 := { e with search_completed := e.search_running,
                     search_running := NoSearch,
                     unresolved_stop_time := none }
  let no_new_search :=
    identSP e1.search_desired e1.search_completed || !e1.search_desired.node.isSome
  let report_bestmove :=
    identSP e1.search_desired e1.search_completed && e1.search_completed.node.isSome
  if no_new_search then
    let e2 := { e1 with search_desired := NoSearch }
    if report_bestmove then
      let r := e2.send_queued_setoptions
      (r.1, Event.log ("< " ++ line) :: r.2
              ++ [Event.receive_bestmove line r.1.search_completed.node])
    else
      let r := e2.send_queued_setoptions
      (r.1, Event.log ("(ignore halted) < " ++ line) :: r.2)
  else
    let r := e1.send_queued_setoptions
    let r2 := r.1.send_desired_ok cfg
    (r2.1, Event.log ("(ignore old) < " ++ line) :: r.2 ++ r2.2)

/-- The `handle_info_line` method: drop the line when there is no running
search, its node is destroyed, a non-leelaish engine is in transition
(`desired.node` not identical to `running.node`), or the suppressed cycle
equals the current cycle; otherwise forward it to the hub's info handler. -/
def Engine.handle_info_line (e : Engine) (cfg : Config) (line : String) :
    Engine × List Event :=
  match e.search_running.node with
  | none =>
    (e, if cfg.log_info_lines then [Event.log ("(ignore !node) < " ++ line)] else [])
  | some n =>
    if n.destroyed then
      (e, if cfg.log_info_lines then [Event.log ("(ignore destroyed) < " ++ line)] else [])
    else if !e.leelaish && !identOptNode e.search_desired.node e.search_running.node then
      (e, if cfg.log_info_lines then [Event.log ("(ignore A/B late) < " ++ line)] else [])
    else if e.suppress_cycle_info == some e.engine_cycle then
      (e, if cfg.log_info_lines then [Event.log ("(ignore suppressed) < " ++ line)] else [])
    else
      (e, [Event.info_receive e.search_running.node line])

/-- The `setoption` convenience method.  The JavaScript return value (the
composed line, for the renderer's message popup) is not part of the driver
state and is dropped here. -/
def Engine.setoption (e : Engine) (name value : String) : Engine × List Event :=
  e.send ("setoption name " ++ name ++ " value " ++ value) false

/-- The `pressbutton` convenience method (value-less `setoption`). -/
def Engine.pressbutton (e : Engine) (name : String) : Engine × List Event :=
  e.send ("setoption name " ++ name) false

/-- The `send_ucinewgame` method: no-op before both handshakes. -/
def Engine.send_ucinewgame (e : Engine) : Engine × List Event :=
  if !e.ever_received_uciok || !e.ever_received_readyok then (e, [])
  else e.send "ucinewgame" false

/-- The stdin writes among a list of events, in order. -/
def writesOf (evs : List Event) : List String :=
  evs.filterMap (fun ev => match ev with | Event.stdin_write l => some l | _ => none)

/-- The number of emitted `go` commands among a list of events. -/
def goWrites (evs : List Event) : Nat :=
  (writesOf evs).countP (fun l => jsStartsWith l "go")

/-- The hub bestmove callbacks among a list of events. -/
def bestmovesOf (evs : List Event) : List (String × Option Node) :=
  evs.filterMap (fun ev => match ev with | Event.receive_bestmove l n => some (l, n) | _ => none)

/-- The forwarding condition of the info filter (spec section 4.4), written
following the spec's words: a running, non-destroyed node; leelaish variant or
no transition in progress; and no suppression of the current cycle. -/
def Engine.info_forward_ok (e : Engine) : Bool :=
  e.search_running.node.isSome
    && !(e.search_running.node.any Node.destroyed)
    && (e.leelaish || identOptNode e.search_desired.node e.search_running.node)
    && !(e.suppress_cycle_info == some e.engine_cycle)

/-! ## Eventlist bookkeeping -/

theorem writesOf_append (a b : List Event) : writesOf (a ++ b) = writesOf a ++ writesOf b := by
  simp [writesOf]

theorem bestmovesOf_append (a b : List Event) :
    bestmovesOf (a ++ b) = bestmovesOf a ++ bestmovesOf b := by
  simp [bestmovesOf]

/-! ## Concrete fixtures used by the witnesses -/

/-- A healthy node sitting at the standard initial position. -/
def nodeW : Node :=
  { id := 1, destroyed := false, terminal_reason := "",
    root_fen_classical := startposFEN, root_fen_960 := startposFEN,
    history := [], history_old_format := [], legal_moves := ["e2e4", "d2d4"],
    graphic := "" }

/-- A healthy node one move deep into a different position. -/
def nodeW2 : Node :=
  { id := 2, destroyed := false, terminal_reason := "",
    root_fen_classical := "8/8/8/8/8/8/8/K1k5 w - - 0 1",
    root_fen_960 := "8/8/8/8/8/8/8/K1k5 w - - 0 1",
    history := ["e2e4"], history_old_format := ["e2e4"], legal_moves := ["e7e5"],
    graphic := "" }

/-- A configuration with all logging and optional features off. -/
def cfgW : Config :=
  { log_positions := false, log_info_lines := false, use_movetime := false,
    searchmoves_buttons := false }

/-- A freshly handshaken idle engine with a loaded subprocess. -/
def engW : Engine :=
  { exe := true, last_send := none, unresolved_stop_time := none,
    ever_received_uciok := true, ever_received_readyok := true, have_quit := false,
    suppress_cycle_info := none, sent_options := [], setoption_queue := [],
    warned_send_fail := false, leelaish := false,
    search_running := NoSearch, search_desired := NoSearch, search_completed := NoSearch,
    engine_cycle := 0, engine_subcycle := 0 }

/-- A running search over `nodeW` (object serial 10). -/
def spW : SearchParams :=
  { id := 10, node := some nodeW, limit := some 1000, searchmoves := [] }

/-- A desired search over `nodeW2` (object serial 11), distinct from `spW`. -/
def spW2 : SearchParams :=
  { id := 11, node := some nodeW2, limit := some 1000, searchmoves := [] }

/-- `engW` in state 2 (Running): the running search is also the desired one. -/
def engW2 : Engine :=
  { engW with search_running := spW, search_desired := spW }

/-- `engW` in state 3 (Changing): a stop is outstanding and the desired search
differs from the running one. -/
def engW3 : Engine :=
  { engW with search_running := spW, search_desired := spW2,
              unresolved_stop_time := some 5 }

/-- `engW` with no subprocess loaded. -/
def engWnoexe : Engine :=
  { engW with exe := false }

/-- `engW` in state 4 (Ending) with one queued `setoption`. -/
def engW4q : Engine :=
  { engW with search_running := spW, search_desired := NoSearch,
              unresolved_stop_time := some 5,
              setoption_queue := ["setoption name Threads value 4"] }

/-! ## Characterisation of `send` -/

/-- Fields of the engine state that `send` never touches. -/
theorem send_preserved (e : Engine) (msg : String) (force : Bool) :
    (e.send msg force).1.exe = e.exe
    ∧ (e.send msg force).1.engine_cycle = e.engine_cycle
    ∧ (e.send msg force).1.engine_subcycle = e.engine_subcycle
    ∧ (e.send msg force).1.search_running = e.search_running
    ∧ (e.send msg force).1.search_desired = e.search_desired
    ∧ (e.send msg force).1.search_completed = e.search_completed
    ∧ (e.send msg force).1.unresolved_stop_time = e.unresolved_stop_time
    ∧ (e.send msg force).1.ever_received_uciok = e.ever_received_uciok
    ∧ (e.send msg force).1.ever_received_readyok = e.ever_received_readyok
    ∧ (e.send msg force).1.suppress_cycle_info = e.suppress_cycle_info
    ∧ (e.send msg force).1.leelaish = e.leelaish := by
  unfold Engine.send
  by_cases h1 : jsStartsWith (jsTrim msg) "setoption" = true
  · by_cases h2 : (e.search_running.node.isSome && !force) = true
    · simp [h1, h2]
    · cases hp : parseSetoption (jsTrim msg) with
      | none => by_cases h3 : (!e.exe) = true <;> simp [h1, h2, h3, hp]
      | some kv =>
        obtain ⟨k, v⟩ := kv
        by_cases h3 : (!e.exe) = true <;> simp [h1, h2, h3, hp]
  · by_cases h3 : (!e.exe) = true <;> simp [h1, h3]

/-- The stdin writes of one `send` call: nothing when the line is queued or no
subprocess is loaded, else exactly the trimmed line. -/
theorem writesOf_send (e : Engine) (msg : String) (force : Bool) :
    writesOf (e.send msg force).2 =
      if jsStartsWith (jsTrim msg) "setoption" && e.search_running.node.isSome && !force
      then []
      else if e.exe then [jsTrim msg] else [] := by
  unfold Engine.send
  by_cases h1 : jsStartsWith (jsTrim msg) "setoption" = true <;>
    by_cases hr : e.search_running.node.isSome = true <;>
      by_cases hf : force = true <;>
        by_cases h3 : e.exe = true <;>
          cases hp : parseSetoption (jsTrim msg) <;>
            simp [h1, hr, hf, h3, hp, writesOf, Engine.send_ack_setoption_to_main_process]

/-- The queue after one `send` call: the trimmed line is appended exactly when
it is a `setoption` submitted during a search without force. -/
theorem queue_send (e : Engine) (msg : String) (force : Bool) :
    (e.send msg force).1.setoption_queue =
      if jsStartsWith (jsTrim msg) "setoption" && e.search_running.node.isSome && !force
      then e.setoption_queue ++ [jsTrim msg]
      else e.setoption_queue := by
  unfold Engine.send
  by_cases h1 : jsStartsWith (jsTrim msg) "setoption" = true <;>
    by_cases hr : e.search_running.node.isSome = true <;>
      by_cases hf : force = true <;>
        by_cases h3 : e.exe = true <;>
          cases hp : parseSetoption (jsTrim msg) <;>
            simp [h1, hr, hf, h3, hp]

/-- The option registry after one `send` call. -/
theorem sent_options_send (e : Engine) (msg : String) (force : Bool) :
    (e.send msg force).1.sent_options =
      if jsStartsWith (jsTrim msg) "setoption" && !(e.search_running.node.isSome && !force)
      then
        match parseSetoption (jsTrim msg) with
        | some kv => recordOpt e.sent_options kv.1 kv.2
        | none => e.sent_options
      else e.sent_options := by
  unfold Engine.send
  by_cases h1 : jsStartsWith (jsTrim msg) "setoption" = true <;>
    by_cases hr : e.search_running.node.isSome = true <;>
      by_cases hf : force = true <;>
        by_cases h3 : e.exe = true <;>
          cases hp : parseSetoption (jsTrim msg) <;>
            simp [h1, hr, hf, h3, hp]

/-- A `send` call produces no bestmove callback. -/
theorem bestmovesOf_send (e : Engine) (msg : String) (force : Bool) :
    bestmovesOf (e.send msg force).2 = [] := by
  unfold Engine.send
  by_cases h1 : jsStartsWith (jsTrim msg) "setoption" = true
  · by_cases h2 : (e.search_running.node.isSome && !force) = true
    · simp [h1, h2, bestmovesOf]
    · cases hp : parseSetoption (jsTrim msg) with
      | none =>
        by_cases h3 : (!e.exe) = true <;> simp [h1, h2, h3, hp, bestmovesOf]
      | some kv =>
        obtain ⟨k, v⟩ := kv
        by_cases h3 : (!e.exe) = true <;>
          simp [h1, h2, h3, hp, bestmovesOf, Engine.send_ack_setoption_to_main_process]
  · by_cases h3 : (!e.exe) = true <;> simp [h1, h3, bestmovesOf]

theorem bestmovesOf_sendListForced (e : Engine) (l : List String) :
    bestmovesOf (sendListForced e l).2 = [] := by
  induction l generalizing e with
  | nil => simp [sendListForced, bestmovesOf]
  | cons m rest ih =>
    simp [sendListForced, bestmovesOf_append, bestmovesOf_send, ih]

theorem bestmovesOf_drain (e : Engine) :
    bestmovesOf (e.send_queued_setoptions).2 = [] := by
  unfold Engine.send_queued_setoptions
  simp [bestmovesOf_sendListForced]

theorem bestmovesOf_log (s : String) : bestmovesOf [Event.log s] = [] := rfl

theorem bestmovesOf_cons_log (s : String) (evs : List Event) :
    bestmovesOf (Event.log s :: evs) = bestmovesOf evs := by
  simp [bestmovesOf]

theorem bestmovesOf_send_desired_ok (e : Engine) (cfg : Config) :
    bestmovesOf (e.send_desired_ok cfg).2 = [] := by
  unfold Engine.send_desired_ok
  split
  · simp [bestmovesOf]
  · split
    · simp [bestmovesOf]
    · by_cases hl : cfg.log_positions = true <;>
        simp [hl, bestmovesOf_append, bestmovesOf_send, bestmovesOf_log,
          bestmovesOf_cons_log]

/-- Fields of the engine state that a forced send of a list of lines never
touches. -/
theorem sendListForced_preserved (l : List String) (e : Engine) :
    (sendListForced e l).1.exe = e.exe
    ∧ (sendListForced e l).1.engine_cycle = e.engine_cycle
    ∧ (sendListForced e l).1.engine_subcycle = e.engine_subcycle
    ∧ (sendListForced e l).1.search_running = e.search_running
    ∧ (sendListForced e l).1.search_desired = e.search_desired
    ∧ (sendListForced e l).1.search_completed = e.search_completed
    ∧ (sendListForced e l).1.unresolved_stop_time = e.unresolved_stop_time
    ∧ (sendListForced e l).1.ever_received_uciok = e.ever_received_uciok
    ∧ (sendListForced e l).1.ever_received_readyok = e.ever_received_readyok
    ∧ (sendListForced e l).1.suppress_cycle_info = e.suppress_cycle_info
    ∧ (sendListForced e l).1.leelaish = e.leelaish := by
  induction l generalizing e with
  | nil => simp [sendListForced]
  | cons m rest ih =>
    have hs := send_preserved e m true
    have hr := ih (e.send m true).1
    simp only [sendListForced]
    exact ⟨hr.1.trans hs.1, hr.2.1.trans hs.2.1, hr.2.2.1.trans hs.2.2.1,
      hr.2.2.2.1.trans hs.2.2.2.1, hr.2.2.2.2.1.trans hs.2.2.2.2.1,
      hr.2.2.2.2.2.1.trans hs.2.2.2.2.2.1,
      hr.2.2.2.2.2.2.1.trans hs.2.2.2.2.2.2.1,
      hr.2.2.2.2.2.2.2.1.trans hs.2.2.2.2.2.2.2.1,
      hr.2.2.2.2.2.2.2.2.1.trans hs.2.2.2.2.2.2.2.2.1,
      hr.2.2.2.2.2.2.2.2.2.1.trans hs.2.2.2.2.2.2.2.2.2.1,
      hr.2.2.2.2.2.2.2.2.2.2.trans hs.2.2.2.2.2.2.2.2.2.2⟩

/-- Fields of the engine state that draining the option queue never touches. -/
theorem drain_preserved (e : Engine) :
    (e.send_queued_setoptions).1.exe = e.exe
    ∧ (e.send_queued_setoptions).1.engine_cycle = e.engine_cycle
    ∧ (e.send_queued_setoptions).1.engine_subcycle = e.engine_subcycle
    ∧ (e.send_queued_setoptions).1.search_running = e.search_running
    ∧ (e.send_queued_setoptions).1.search_desired = e.search_desired
    ∧ (e.send_queued_setoptions).1.search_completed = e.search_completed
    ∧ (e.send_queued_setoptions).1.unresolved_stop_time = e.unresolved_stop_time
    ∧ (e.send_queued_setoptions).1.suppress_cycle_info = e.suppress_cycle_info
    ∧ (e.send_queued_setoptions).1.leelaish = e.leelaish := by
  have h := sendListForced_preserved e.setoption_queue e
  unfold Engine.send_queued_setoptions
  exact ⟨h.1, h.2.1, h.2.2.1, h.2.2.2.1, h.2.2.2.2.1, h.2.2.2.2.2.1,
    h.2.2.2.2.2.2.1, h.2.2.2.2.2.2.2.2.2.1, h.2.2.2.2.2.2.2.2.2.2⟩

theorem bestmovesOf_receive (l : String) (n : Option Node) :
    bestmovesOf [Event.receive_bestmove l n] = [(l, n)] := rfl

/-! ## Lowercasing helpers for the option registry -/

theorem char_toNat_ofNat_valid (n : Nat) (h : n.isValidChar) : (Char.ofNat n).toNat = n := by
  unfold Char.ofNat
  rw [dif_pos h]
  unfold Char.ofNatAux Char.toNat
  simp [UInt32.toNat]

theorem char_toLower_idem (c : Char) : c.toLower.toLower = c.toLower := by
  unfold Char.toLower
  by_cases h : c.toNat >= 65 ∧ c.toNat <= 90
  · rw [if_pos h]
    have hv : (c.toNat + 32).isValidChar := Or.inl (by omega)
    have ht := char_toNat_ofNat_valid (c.toNat + 32) hv
    rw [if_neg]
    rw [ht]
    omega
  · rw [if_neg h, if_neg h]

theorem char_mem_trimChars {c : Char} {l : List Char} (h : c ∈ trimChars l) : c ∈ l := by
  unfold trimChars at h
  rw [List.mem_reverse] at h
  have h2 := (List.dropWhile_sublist _).mem h
  rw [List.mem_reverse] at h2
  exact (List.dropWhile_sublist _).mem h2

theorem char_mem_jsTrim {c : Char} {s : String} (h : c ∈ (jsTrim s).data) : c ∈ s.data :=
  char_mem_trimChars h

theorem char_mem_jsSlice {c : Char} {s : String} {a b : Nat}
    (h : c ∈ (jsSlice s a b).data) : c ∈ s.data := by
  unfold jsSlice at h
  exact List.mem_of_mem_drop (List.mem_of_mem_take h)

theorem toLower_fixed_of_mem_lower {c : Char} {s : String}
    (h : c ∈ (jsToLower s).data) : c.toLower = c := by
  unfold jsToLower at h
  rw [List.mem_map] at h
  obtain ⟨c2, _, rfl⟩ := h
  exact char_toLower_idem c2

theorem map_toLower_fixed : ∀ (l : List Char), (∀ c ∈ l, c.toLower = c) →
    l.map Char.toLower = l
  | [], _ => rfl
  | a :: t, h => by
    simp only [List.map_cons]
    rw [h a (List.mem_cons_self a t),
      map_toLower_fixed t (fun c hc => h c (List.mem_cons_of_mem a hc))]

theorem jsToLower_fixed {s : String} (h : ∀ c ∈ s.data, c.toLower = c) :
    jsToLower s = s := by
  unfold jsToLower
  rw [map_toLower_fixed s.data h]

/-- The key extracted by a successful `setoption` parse is already lowercase:
lowercasing it again is the identity. -/
theorem parse_key_fixed {m key val : String}
    (hp : parseSetoption m = some (key, val)) : jsToLower key = key := by
  simp only [parseSetoption] at hp
  cases h1 : jsIndexOf (jsToLower m) "name" with
  | none => simp only [h1] at hp; exact absurd hp (by simp)
  | some i1 =>
    cases h2 : jsIndexOf (jsToLower m) "value" with
    | none => simp only [h1, h2] at hp; exact absurd hp (by simp)
    | some i2 =>
      simp only [h1, h2] at hp
      by_cases hlt : i1 < i2
      · rw [if_pos hlt] at hp
        by_cases hk : (jsTrim (jsSlice (jsToLower m) (i1 + 5) (i2 - 1))).length > 0
        · rw [if_pos hk] at hp
          simp only [Option.some.injEq, Prod.mk.injEq] at hp
          obtain ⟨hkey, hval⟩ := hp
          subst hkey
          exact jsToLower_fixed (fun c hc =>
            toLower_fixed_of_mem_lower (char_mem_jsSlice (char_mem_jsTrim hc)))
        · rw [if_neg hk] at hp; exact absurd hp (by simp)
      · rw [if_neg hlt] at hp; exact absurd hp (by simp)

theorem lookup_record (m : List (String × String)) (k v : String) :
    lookupOpt (recordOpt m k v) k = some v := by
  simp [lookupOpt, recordOpt]

/-! ## C8: option registry round trip -/

/-- C8: when `send` handles a `setoption` line whose `name ... value ...`
fragment parses with a non-empty key and the line is not queued, it records the
lowercased key with the exact value in `sent_options` and emits an
`ack_setoption` carrying that key and that exact value; this happens whether or
not a subprocess is loaded (the engine is universally quantified, including
`exe = false`).  An ack for a key with no recorded value carries the empty
string. -/
theorem c8_registry_round_trip (e : Engine) (msg : String) (force : Bool) (key val : String)
    (hso : jsStartsWith (jsTrim msg) "setoption" = true)
    (hnq : (e.search_running.node.isSome && !force) = false)
    (hp : parseSetoption (jsTrim msg) = some (key, val)) :
    (e.send msg force).1.sent_options = recordOpt e.sent_options key val
    ∧ lookupOpt (e.send msg force).1.sent_options key = some val
    ∧ Event.ack_setoption key val ∈ (e.send msg force).2
    ∧ (∀ (e2 : Engine) (name : String), lookupOpt e2.sent_options (jsToLower name) = none →
        e2.send_ack_setoption_to_main_process name =
          Event.ack_setoption (jsToLower name) "") := by
  have hkey := parse_key_fixed hp
  refine ⟨?_, ?_, ?_, ?_⟩
  · rw [sent_options_send]
    simp [hso, hnq, hp]
  · rw [sent_options_send]
    simp [hso, hnq, hp, lookup_record]
  · unfold Engine.send
    by_cases h3 : e.exe = true <;>
      simp [hso, hnq, hp, h3, Engine.send_ack_setoption_to_main_process, hkey,
        lookup_record]
  · intro e2 name hnone
    unfold Engine.send_ack_setoption_to_main_process
    rw [hnone]
    rfl

/-- Witness for C8: a `setoption` sent to an engine with no subprocess loaded
is still recorded and acked. -/
theorem c8_registry_round_trip_witness :
    jsStartsWith (jsTrim "setoption name Threads value 4") "setoption" = true
    ∧ (engWnoexe.search_running.node.isSome && !false) = false
    ∧ parseSetoption (jsTrim "setoption name Threads value 4") = some ("threads", "4")
    ∧ lookupOpt (engWnoexe.send "setoption name Threads value 4" false).1.sent_options
        "threads" = some "4"
    ∧ Event.ack_setoption "threads" "4"
        ∈ (engWnoexe.send "setoption name Threads value 4" false).2 :=
  ⟨by decide, by decide, by decide,
   (c8_registry_round_trip engWnoexe "setoption name Threads value 4" false "threads" "4"
     (by decide) (by decide) (by decide)).2.1,
   (c8_registry_round_trip engWnoexe "setoption name Threads value 4" false "threads" "4"
     (by decide) (by decide) (by decide)).2.2.1⟩

/-! ## C9: SearchParams construction -/

/-- C9: constructing `SearchParams` with an empty node returns the shared
`NoSearch` sentinel itself (same serial, hence same object, no allocation);
with a non-empty node the stored searchmoves are exactly the node-validated
sequence, which contains only moves the node accepts as legal; a non-array
searchmoves argument validates to the empty sequence.  Mutation or retention
of the caller's sequence is impossible in this pure embedding, matching the
frozen fresh array of the source. -/
theorem c9_searchparams_construction :
    (∀ (fresh : Nat) (limit : Option Nat) (sm : Option (List String)),
        SearchParams.make fresh none limit sm = NoSearch)
    ∧ (∀ (fresh : Nat) (n : Node) (limit : Option Nat) (sm : List String),
        (SearchParams.make fresh (some n) limit (some sm)).searchmoves
            = n.validate_searchmoves sm
        ∧ ∀ mv ∈ (SearchParams.make fresh (some n) limit (some sm)).searchmoves,
            n.legal_moves.contains mv = true)
    ∧ (∀ (fresh : Nat) (n : Node) (limit : Option Nat),
        (SearchParams.make fresh (some n) limit none).searchmoves = []) := by
  refine ⟨fun _ _ _ => rfl, fun fresh n limit sm => ⟨rfl, fun mv hmv => ?_⟩,
    fun _ _ _ => rfl⟩
  simp only [SearchParams.make, Node.validate_searchmoves] at hmv
  exact List.of_mem_filter hmv

/-- Witness for C9: a concrete construction validates away an illegal move and
keeps a legal one. -/
theorem c9_searchparams_construction_witness :
    SearchParams.make 5 none (some 100) (some ["e2e4"]) = NoSearch
    ∧ (SearchParams.make 5 (some nodeW) (some 100) (some ["e2e4", "a1a1"])).searchmoves
        = ["e2e4"]
    ∧ nodeW.legal_moves.contains "e2e4" = true :=
  ⟨by decide, by decide,
   (c9_searchparams_construction.2.1 5 nodeW (some 100) ["e2e4", "a1a1"]).2 "e2e4"
     (by decide)⟩

/-! ## C1: bestmove forwarding -/

/-- C1: processing an inbound bestmove line calls `hub.receive_bestmove` with
that line and the node of the just-completed search if and only if, at that
moment, the desired `SearchParams` is identical (object identity) to the
just-completed one and its node is non-empty; in every other case no bestmove
callback at all is produced. -/
theorem c1_bestmove_forwarding (e : Engine) (cfg : Config) (line : String) :
    bestmovesOf (e.handle_bestmove_line cfg line).2 =
      if identSP e.search_desired e.search_running && e.search_running.node.isSome
      then [(line, e.search_running.node)]
      else [] := by
  unfold Engine.handle_bestmove_line
  by_cases hid : identSP e.search_desired e.search_running = true <;>
    by_cases hnode : e.search_running.node.isSome = true <;>
      by_cases hdn : e.search_desired.node.isSome = true <;>
        simp [hid, hnode, hdn, bestmovesOf_cons_log, bestmovesOf_append,
          bestmovesOf_drain, bestmovesOf_send_desired_ok, bestmovesOf_receive,
          (drain_preserved _).2.2.2.2.2.1]

/-! ## Prefix and trim lemmas for the wire protocol lines -/

theorem isPrefixOf_append_self : ∀ (p x : List Char), p.isPrefixOf (p ++ x) = true
  | [], _ => by simp
  | c :: t, x => by
    simp only [List.cons_append, List.isPrefixOf_cons₂_self]
    exact isPrefixOf_append_self t x

theorem isPrefixOf_ex : ∀ {p l : List Char}, p.isPrefixOf l = true → ∃ t, l = p ++ t
  | [], l, _ => ⟨l, rfl⟩
  | c :: t, [], h => by simp at h
  | c :: t, c2 :: t2, h => by
    rw [List.isPrefixOf_cons₂] at h
    obtain ⟨h1, h2⟩ := Bool.and_eq_true_iff.mp h
    obtain ⟨t3, rfl⟩ := isPrefixOf_ex h2
    exact ⟨t3, by rw [beq_iff_eq.mp h1, List.cons_append]⟩

theorem isPrefixOf_append_of (p a x : List Char) (h : p.isPrefixOf a = true) :
    p.isPrefixOf (a ++ x) = true := by
  obtain ⟨t, rfl⟩ := isPrefixOf_ex h
  rw [List.append_assoc]
  exact isPrefixOf_append_self p (t ++ x)

theorem jsStartsWith_append_of (s x pre : String) (h : jsStartsWith s pre = true) :
    jsStartsWith (s ++ x) pre = true := by
  unfold jsStartsWith at h
  unfold jsStartsWith
  rw [String.data_append]
  exact isPrefixOf_append_of _ _ _ h

theorem dropWhile_ws_eq_self {l : List Char} (h : ∀ c ∈ l, c.isWhitespace = false) :
    l.dropWhile Char.isWhitespace = l := by
  cases l with
  | nil => rfl
  | cons a t =>
    exact List.dropWhile_cons_of_neg (by simp [h a (List.mem_cons_self a t)])

/-- Trimming a line that starts with a non-empty whitespace-free marker keeps
that marker as its head. -/
theorem trimChars_startsWith (c : Char) (t r : List Char)
    (hp : ∀ x ∈ c :: t, x.isWhitespace = false) :
    (c :: t).isPrefixOf (trimChars ((c :: t) ++ r)) = true := by
  have hc : c.isWhitespace = false := hp c (List.mem_cons_self c t)
  have ht : ∀ x ∈ t.reverse ++ [c], x.isWhitespace = false := by
    intro x hx
    rcases List.mem_append.mp hx with h1 | h1
    · exact hp x (List.mem_cons_of_mem c (List.mem_reverse.mp h1))
    · rw [List.mem_singleton.mp h1]; exact hc
  unfold trimChars
  rw [List.cons_append, List.dropWhile_cons_of_neg (by simp [hc])]
  rw [show (c :: (t ++ r)).reverse = r.reverse ++ (t.reverse ++ [c]) by simp]
  rw [List.dropWhile_append]
  by_cases he : ((r.reverse.dropWhile Char.isWhitespace).isEmpty : Bool) = true
  · rw [if_pos he, dropWhile_ws_eq_self ht]
    rw [show (t.reverse ++ [c]).reverse = c :: t by simp]
    have h0 := isPrefixOf_append_self (c :: t) []
    rwa [List.append_nil] at h0
  · rw [if_neg he]
    rw [show ((r.reverse.dropWhile Char.isWhitespace) ++ (t.reverse ++ [c])).reverse
        = (c :: t) ++ (r.reverse.dropWhile Char.isWhitespace).reverse by simp]
    exact isPrefixOf_append_self (c :: t) _

theorem startsWith_jsTrim_of (pre s : String) (hne : pre.data ≠ [])
    (hp : ∀ c ∈ pre.data, c.isWhitespace = false)
    (h : jsStartsWith s pre = true) : jsStartsWith (jsTrim s) pre = true := by
  obtain ⟨t, ht⟩ := isPrefixOf_ex h
  obtain ⟨c, t2, hct⟩ := List.exists_cons_of_ne_nil hne
  unfold jsStartsWith jsTrim
  show pre.data.isPrefixOf (trimChars s.data) = true
  rw [ht, hct]
  exact trimChars_startsWith c t2 t (hct ▸ hp)

theorem mem_writesOf_send {l : String} {e : Engine} {msg : String} {force : Bool}
    (h : l ∈ writesOf (e.send msg force).2) : l = jsTrim msg := by
  rw [writesOf_send] at h
  by_cases h1 : (jsStartsWith (jsTrim msg) "setoption" && e.search_running.node.isSome
      && !force) = true
  · rw [if_pos h1] at h; simp at h
  · rw [if_neg h1] at h
    by_cases h2 : e.exe = true
    · rw [if_pos h2] at h; exact List.mem_singleton.mp h
    · rw [if_neg h2] at h; simp at h

theorem position_line_startsWith (c : Prop) [Decidable c] (setup mvs : String) :
    jsStartsWith
      (if c then "position " ++ setup else "position " ++ setup ++ " moves " ++ mvs)
      "position" = true := by
  by_cases hc : c
  · rw [if_pos hc]
    exact jsStartsWith_append_of _ _ _ (by decide)
  · rw [if_neg hc]
    exact jsStartsWith_append_of _ _ _
      (jsStartsWith_append_of _ _ _ (jsStartsWith_append_of _ _ _ (by decide)))

theorem go_s0_startsWith (n : Option Nat) (b : Bool) (x y : String) :
    jsStartsWith
      (if jsFalsyNat n then "go infinite"
       else if b then "go movetime " ++ x else "go nodes " ++ y) "go" = true := by
  by_cases h1 : jsFalsyNat n = true
  · rw [if_pos h1]; decide
  · rw [if_neg h1]
    cases b
    · simp only [Bool.false_eq_true, if_false]
      exact jsStartsWith_append_of _ _ _ (by decide)
    · simp only [if_true]
      exact jsStartsWith_append_of _ _ _ (by decide)

theorem go_line_wrap (c : Prop) [Decidable c] (s0 x y : String)
    (h : jsStartsWith s0 "go" = true) :
    jsStartsWith (if c then s0 ++ x ++ y else s0) "go" = true := by
  by_cases hc : c
  · rw [if_pos hc]
    exact jsStartsWith_append_of _ _ _ (jsStartsWith_append_of _ _ _ h)
  · rwa [if_neg hc]

/-- Every stdin write of `send_desired_ok` is a `position` or a `go` command. -/
theorem writes_send_desired_ok_shape (e : Engine) (cfg : Config) :
    ∀ l ∈ writesOf (e.send_desired_ok cfg).2,
      jsStartsWith l "position" = true ∨ jsStartsWith l "go" = true := by
  unfold Engine.send_desired_ok
  split
  · simp [writesOf]
  · split
    · simp [writesOf]
    · intro l hl
      rw [writesOf_append] at hl
      rcases List.mem_append.mp hl with h1 | h1
      · left
        by_cases hlp : cfg.log_positions = true
        · rw [if_pos hlp, writesOf_append] at h1
          rcases List.mem_append.mp h1 with h3 | h3
          · rw [mem_writesOf_send h3]
            exact startsWith_jsTrim_of _ _ (by decide) (by decide)
              (position_line_startsWith _ _ _)
          · simp [writesOf] at h3
        · rw [if_neg hlp] at h1
          rw [mem_writesOf_send h1]
          exact startsWith_jsTrim_of _ _ (by decide) (by decide)
            (position_line_startsWith _ _ _)
      · right
        rw [mem_writesOf_send h1]
        exact startsWith_jsTrim_of _ _ (by decide) (by decide)
          (go_line_wrap _ _ _ _ (go_s0_startsWith _ _ _ _))

theorem map_fixed {α : Type} (f : α → α) : ∀ (l : List α), (∀ x ∈ l, f x = x) →
    l.map f = l
  | [], _ => rfl
  | a :: t, h => by
    simp only [List.map_cons]
    rw [h a (List.mem_cons_self a t),
      map_fixed f t (fun x hx => h x (List.mem_cons_of_mem a hx))]

theorem writesOf_sendListForced (l : List String) (e : Engine) :
    writesOf (sendListForced e l).2 = if e.exe = true then l.map jsTrim else [] := by
  induction l generalizing e with
  | nil => by_cases h : e.exe = true <;> simp [sendListForced, writesOf, h]
  | cons m rest ih =>
    have he1 : (e.send m true).1.exe = e.exe := (send_preserved e m true).1
    by_cases h : e.exe = true <;>
      simp [sendListForced, writesOf_append, writesOf_send, h, ih, he1]

theorem writesOf_drain (e : Engine) :
    writesOf (e.send_queued_setoptions).2 =
      if e.exe = true then e.setoption_queue.map jsTrim else [] := by
  unfold Engine.send_queued_setoptions
  exact writesOf_sendListForced e.setoption_queue e

theorem writesOf_cons_log (s : String) (evs : List Event) :
    writesOf (Event.log s :: evs) = writesOf evs := by
  simp [writesOf]

theorem writesOf_receive (l : String) (n : Option Node) :
    writesOf [Event.receive_bestmove l n] = [] := rfl

/-! ## C6: queue drain ordering -/

/-- C6: with a subprocess loaded and a well-formed queue (entries are trimmed,
as `send` always stores them), draining the option queue leaves it empty and
writes exactly the queued lines once, in the original order (with the force
flag, so the writes happen regardless of the running search); and in the
bestmove handler, the only caller that is followed by `send_desired`, the
queued lines form a prefix of all stdin writes, before any `position` or `go`
command of the relaunch. -/
theorem c6_drain_order (e : Engine) (cfg : Config) (line : String)
    (hexe : e.exe = true)
    (hq : ∀ l ∈ e.setoption_queue, jsTrim l = l) :
    ((e.send_queued_setoptions).1.setoption_queue = []
      ∧ writesOf (e.send_queued_setoptions).2 = e.setoption_queue)
    ∧ (∃ rest, writesOf (e.handle_bestmove_line cfg line).2
          = e.setoption_queue ++ rest
        ∧ ∀ l2 ∈ rest, jsStartsWith l2 "position" = true ∨ jsStartsWith l2 "go" = true) := by
  have hwq : e.setoption_queue.map jsTrim = e.setoption_queue := map_fixed _ _ hq
  refine ⟨⟨rfl, ?_⟩, ?_⟩
  · rw [writesOf_drain, if_pos hexe, hwq]
  · unfold Engine.handle_bestmove_line
    by_cases hid : identSP e.search_desired e.search_running = true
    · by_cases hnode : e.search_running.node.isSome = true
      · refine ⟨[], ?_, by simp⟩
        simp [hid, hnode, writesOf_cons_log, writesOf_append, writesOf_drain,
          writesOf_receive, hexe, hwq]
      · refine ⟨[], ?_, by simp⟩
        simp [hid, hnode, writesOf_cons_log, writesOf_append, writesOf_drain,
          writesOf_receive, hexe, hwq]
    · by_cases hdn : e.search_desired.node.isSome = true
      · have heq : writesOf (e.handle_bestmove_line cfg line).2
            = e.setoption_queue ++ writesOf ((Engine.send_queued_setoptions
                { e with search_completed := e.search_running,
                         search_running := NoSearch,
                         unresolved_stop_time := none }).1.send_desired_ok cfg).2 := by
          unfold Engine.handle_bestmove_line
          simp [hid, hdn, writesOf_cons_log, writesOf_append, writesOf_drain,
            hexe, hwq]
        exact ⟨_, heq, fun l2 hl2 => writes_send_desired_ok_shape _ cfg l2 hl2⟩
      · refine ⟨[], ?_, by simp⟩
        simp [hid, hdn, writesOf_cons_log, writesOf_append, writesOf_drain,
          writesOf_receive, hexe, hwq]

/-- Witness for C6: a queued `setoption` is flushed by the drain, exactly once. -/
theorem c6_drain_order_witness :
    engW4q.exe = true
    ∧ (∀ l ∈ engW4q.setoption_queue, jsTrim l = l)
    ∧ (engW4q.send_queued_setoptions).1.setoption_queue = []
    ∧ writesOf (engW4q.send_queued_setoptions).2 = engW4q.setoption_queue :=
  ⟨by decide, by decide,
   (c6_drain_order engW4q cfgW "bestmove e2e4" (by decide) (by decide)).1.1,
   (c6_drain_order engW4q cfgW "bestmove e2e4" (by decide) (by decide)).1.2⟩

/-! ## C4: info line filtering -/

/-- C4: an inbound info line is forwarded to the hub's info handler, together
with the running node, if and only if the running node is non-empty and not
destroyed, the variant is leelaish or the desired node is identical to the
running node, and the suppressed cycle differs from the current engine cycle;
in every other case no info callback is produced and the state is unchanged. -/
theorem c4_info_line_filter (e : Engine) (cfg : Config) (line : String) :
    (Event.info_receive e.search_running.node line ∈ (e.handle_info_line cfg line).2
        ↔ e.info_forward_ok = true)
    ∧ (∀ nd l, Event.info_receive nd l ∈ (e.handle_info_line cfg line).2 →
        nd = e.search_running.node ∧ l = line)
    ∧ (e.handle_info_line cfg line).1 = e := by
  unfold Engine.handle_info_line Engine.info_forward_ok
  cases h : e.search_running.node with
  | none =>
    refine ⟨?_, ?_, ?_⟩ <;> simp [h] <;> split <;> simp
  | some n =>
    by_cases hd : n.destroyed <;>
      by_cases hl : e.leelaish <;>
        by_cases hi : identOptNode e.search_desired.node e.search_running.node <;>
          by_cases hs : e.suppress_cycle_info == some e.engine_cycle <;>
            refine ⟨?_, ?_, ?_⟩ <;>
              simp [h, hd, hl, hi, hs] <;> split <;> simp_all

/-! ## C5: setoption write discipline -/

/-- C5: every line starting with `setoption` that is written to the engine's
stdin was written while no search was running or with the force flag set; and
a `setoption` submitted during a search without force is only appended to the
queue, with no event and no other state change. -/
theorem c5_setoption_write_discipline (e : Engine) (msg : String) (force : Bool) :
    (∀ l, l ∈ writesOf (e.send msg force).2 → jsStartsWith l "setoption" = true →
        e.search_running.node = none ∨ force = true)
    ∧ (jsStartsWith (jsTrim msg) "setoption" = true →
        e.search_running.node.isSome = true → force = false →
        e.send msg force =
          ({ e with setoption_queue := e.setoption_queue ++ [jsTrim msg] }, [])) := by
  constructor
  · intro l hl hso
    rw [writesOf_send] at hl
    by_cases h1 : jsStartsWith (jsTrim msg) "setoption" = true <;>
      by_cases hr : e.search_running.node.isSome = true <;>
        by_cases hf : force = true <;>
          by_cases h3 : e.exe = true <;>
            simp [h1, hr, hf, h3] at hl <;>
              first
                | exact Or.inr hf
                | exact absurd hso h1
                | (rw [hl] at hso; exact absurd hso h1)
                | (left; cases hn : e.search_running.node
                   · rfl
                   · rw [hn] at hr; simp at hr)
  · intro h1 hr hf
    unfold Engine.send
    simp [h1, hr, hf]

/-- Witness for C5: a `setoption` submitted to a running engine without force
is queued, writes nothing, and records nothing. -/
theorem c5_setoption_write_discipline_witness :
    jsStartsWith (jsTrim "setoption name Threads value 4") "setoption" = true
    ∧ engW2.search_running.node.isSome = true
    ∧ engW2.send "setoption name Threads value 4" false =
        ({ engW2 with setoption_queue := ["setoption name Threads value 4"] }, []) :=
  ⟨by decide, by decide,
   (c5_setoption_write_discipline engW2 "setoption name Threads value 4" false).2
     (by decide) (by decide) rfl⟩

/-- Witness for C4: on a running healthy search the filter forwards the line. -/
theorem c4_info_line_filter_witness :
    engW2.info_forward_ok = true
    ∧ Event.info_receive engW2.search_running.node "info depth 5 pv e2e4"
        ∈ (engW2.handle_info_line cfgW "info depth 5 pv e2e4").2 :=
  ⟨by decide,
   (c4_info_line_filter engW2 cfgW "info depth 5 pv e2e4").1.mpr (by decide)⟩

/-! ## C3: send_desired command emission -/

theorem string_append_left_inj (p a b : String) : (p ++ a = p ++ b) ↔ a = b := by
  constructor
  · intro h
    have h2 : (p ++ a).data = (p ++ b).data := by rw [h]
    rw [String.data_append, String.data_append] at h2
    have h3 := List.append_cancel_left h2
    cases a with
    | mk da =>
      cases b with
      | mk db => exact congrArg String.mk h3
  · intro h; rw [h]

theorem send_exe_proj (e : Engine) (msg : String) (force : Bool) :
    (e.send msg force).1.exe = e.exe := (send_preserved e msg force).1

theorem send_running_proj (e : Engine) (msg : String) (force : Bool) :
    (e.send msg force).1.search_running = e.search_running :=
  (send_preserved e msg force).2.2.2.1

theorem send_desired_proj (e : Engine) (msg : String) (force : Bool) :
    (e.send msg force).1.search_desired = e.search_desired :=
  (send_preserved e msg force).2.2.2.2.1

theorem writesOf_log_singleton (s : String) : writesOf [Event.log s] = [] := rfl

/-- C3: when `send_desired` runs with no search running, a loaded subprocess,
and a desired node that is neither empty, destroyed nor terminal (and a limit
respecting the data model, i.e. not the integer 0), it emits exactly two
commands in order: the `position` command (`startpos` iff not in 960 mode and
the root FEN is the standard initial position, with the applicable move
history appended iff non-empty) and then the `go` command (`infinite` on empty
limit, `movetime` under the config flag, else `nodes`, with ` searchmoves`
appended iff the config allows it and the validated list is non-empty);
afterwards `running` is the same object as `desired`. -/
theorem c3_send_desired_commands (e : Engine) (cfg : Config) (n : Node)
    (hrun : e.search_running.node = none)
    (hnode : e.search_desired.node = some n)
    (hdes : n.destroyed = false)
    (hterm : n.terminal_reason = "")
    (hexe : e.exe = true)
    (hlim : e.search_desired.limit ≠ some 0) :
    e.send_desired cfg = Except.ok (e.send_desired_ok cfg)
    ∧ writesOf (e.send_desired_ok cfg).2 =
        [jsTrim (if (if e.in_960_mode then n.history else n.history_old_format) = []
                 then "position " ++
                   (if e.in_960_mode = false ∧ n.root_fen_classical = startposFEN
                    then "startpos"
                    else "fen " ++ (if e.in_960_mode then n.root_fen_960 else n.root_fen_classical))
                 else "position " ++
                   (if e.in_960_mode = false ∧ n.root_fen_classical = startposFEN
                    then "startpos"
                    else "fen " ++ (if e.in_960_mode then n.root_fen_960 else n.root_fen_classical))
                   ++ " moves " ++ jsJoin (if e.in_960_mode then n.history else n.history_old_format)),
         jsTrim ((if e.search_desired.limit = none then "go infinite"
                  else if cfg.use_movetime then "go movetime " ++ toString (e.search_desired.limit.getD 0)
                  else "go nodes " ++ toString (e.search_desired.limit.getD 0))
                 ++ (if cfg.searchmoves_buttons = true ∧ e.search_desired.searchmoves ≠ []
                     then " searchmoves"
                       ++ String.join (e.search_desired.searchmoves.map (fun m => " " ++ m))
                     else ""))]
    ∧ (e.send_desired_ok cfg).1.search_running = e.search_desired
    ∧ (e.send_desired_ok cfg).1.search_desired = e.search_desired := by
  have hguard : e.search_running.node.isSome = false := by rw [hrun]; rfl
  have hterm2 : (n.destroyed || n.terminal_reason != "") = false := by
    rw [hdes, hterm]; rfl
  refine ⟨?_, ?_, ?_, ?_⟩
  · unfold Engine.send_desired
    rw [hguard]
    simp
  · unfold Engine.send_desired_ok
    simp only [hnode, hterm2, Bool.false_eq_true, if_false]
    rw [writesOf_append]
    by_cases hlog : cfg.log_positions = true <;>
      simp only [hlog, if_true, Bool.false_eq_true, if_false, writesOf_append] <;>
      simp only [send_exe_proj, send_running_proj, send_desired_proj,
        writesOf_send, writesOf_log_singleton, hrun, hexe, Option.isSome_none,
        Bool.and_false, Bool.false_and, Bool.and_true, Bool.not_false,
        Bool.false_eq_true, if_false, if_true, List.append_nil, List.nil_append,
        List.singleton_append] <;>
      · by_cases h960 : e.in_960_mode = true
        · cases hlimit : e.search_desired.limit with
          | none =>
            simp [h960, hlimit, jsFalsyNat, List.length_eq_zero, List.length_pos,
              String.append_assoc] <;>
              (try (by_cases hsm : cfg.searchmoves_buttons = true ∧ ¬e.search_desired.searchmoves = [] <;>
                simp [hsm, ← String.append_assoc]))
          | some k =>
            have hk : (k == 0) = false := by
              cases hke : k == 0
              · rfl
              · exact absurd (by rw [hlimit, beq_iff_eq.mp hke]) hlim
            simp [h960, hlimit, jsFalsyNat, hk, List.length_eq_zero, List.length_pos,
              String.append_assoc] <;>
              (try (by_cases hsm : cfg.searchmoves_buttons = true ∧ ¬e.search_desired.searchmoves = [] <;>
                simp [hsm, ← String.append_assoc]))
        · by_cases hfen : n.root_fen_classical = startposFEN
          · cases hlimit : e.search_desired.limit with
            | none =>
              simp [h960, hfen, hlimit, jsFalsyNat, List.length_eq_zero,
                List.length_pos, String.append_assoc] <;>
              (try (by_cases hsm : cfg.searchmoves_buttons = true ∧ ¬e.search_desired.searchmoves = [] <;>
                simp [hsm, ← String.append_assoc]))
            | some k =>
              have hk : (k == 0) = false := by
                cases hke : k == 0
                · rfl
                · exact absurd (by rw [hlimit, beq_iff_eq.mp hke]) hlim
              simp [h960, hfen, hlimit, jsFalsyNat, hk, List.length_eq_zero,
                List.length_pos, String.append_assoc] <;>
              (try (by_cases hsm : cfg.searchmoves_buttons = true ∧ ¬e.search_desired.searchmoves = [] <;>
                simp [hsm, ← String.append_assoc]))
          · have hfen2 : ("fen " ++ n.root_fen_classical == "fen " ++ startposFEN) = false := by
              cases hb : ("fen " ++ n.root_fen_classical == "fen " ++ startposFEN)
              · rfl
              · exact absurd ((string_append_left_inj _ _ _).mp (beq_iff_eq.mp hb)) hfen
            cases hlimit : e.search_desired.limit with
            | none =>
              simp [h960, hfen, hfen2, hlimit, jsFalsyNat, List.length_eq_zero,
                List.length_pos, String.append_assoc] <;>
              (try (by_cases hsm : cfg.searchmoves_buttons = true ∧ ¬e.search_desired.searchmoves = [] <;>
                simp [hsm, ← String.append_assoc]))
            | some k =>
              have hk : (k == 0) = false := by
                cases hke : k == 0
                · rfl
                · exact absurd (by rw [hlimit, beq_iff_eq.mp hke]) hlim
              simp [h960, hfen, hfen2, hlimit, jsFalsyNat, hk, List.length_eq_zero,
                List.length_pos, String.append_assoc] <;>
              (try (by_cases hsm : cfg.searchmoves_buttons = true ∧ ¬e.search_desired.searchmoves = [] <;>
                simp [hsm, ← String.append_assoc]))
  · unfold Engine.send_desired_ok
    simp only [hnode, hterm2, Bool.false_eq_true, if_false]
    simp [send_desired_proj]
  · unfold Engine.send_desired_ok
    simp only [hnode, hterm2, Bool.false_eq_true, if_false]
    simp [send_desired_proj]


/-- A fresh desired search over `nodeW` for the C3 witness (serial 12). -/
def engWd : Engine :=
  { engW with search_desired :=
      { id := 12, node := some nodeW, limit := some 10000, searchmoves := [] } }

/-- Witness for C3: at the start position with a node limit, exactly
`position startpos` then `go nodes 10000` are written and the desired search
becomes the running one. -/
theorem c3_send_desired_commands_witness :
    engWd.search_running.node = none
    ∧ engWd.search_desired.node = some nodeW
    ∧ writesOf (engWd.send_desired_ok cfgW).2 = ["position startpos", "go nodes 10000"]
    ∧ (engWd.send_desired_ok cfgW).1.search_running = engWd.search_desired :=
  ⟨rfl, rfl,
   ((c3_send_desired_commands engWd cfgW nodeW rfl rfl rfl rfl rfl
      (by decide)).2.1).trans (by decide),
   (c3_send_desired_commands engWd cfgW nodeW rfl rfl rfl rfl rfl
      (by decide)).2.2.1⟩

/-! ## C2: behaviour while a stop is outstanding -/

/-- A third distinct node for driving the state machine. -/
def nodeW3 : Node :=
  { nodeW with id := 3 }

/-- C2 as stated is false on the code: `engW3` is in state Changing (a search
runs, a stop is outstanding per `unresolved_stop_time`, and the desired search
differs from the running one), yet a further `set_search_desired` with fresh
parameters writes a second `stop` to the engine instead of emitting no network
traffic. -/
theorem c2_single_stop_counterexample :
    identSP engW3.search_desired engW3.search_running = false
    ∧ engW3.search_running.node.isSome = true
    ∧ engW3.unresolved_stop_time.isSome = true
    ∧ writesOf (engW3.set_search_desired cfgW 12 77 (some nodeW3) (some 1000) (some [])).2
        = ["stop"] := by decide

/-- C2 amended: whenever a search is running (a stop outstanding or not) and
the requested parameters are not deduplicated against `desired`, a
`set_search_desired` call replaces `desired`, writes exactly one (further)
`stop`, and touches nothing else; `unresolved_stop_time` keeps its original
truthy value, so only the first stop of a chain is timestamped.  Hence one
`stop` is emitted per such call, not at most one per expected bestmove. -/
theorem c2_stop_replacement (e : Engine) (cfg : Config) (fresh now : Nat)
    (node : Option Node) (limit : Option Nat) (sm : Option (List String))
    (hhs1 : e.ever_received_uciok = true) (hhs2 : e.ever_received_readyok = true)
    (hrun : e.search_running.node.isSome = true)
    (hexe : e.exe = true)
    (hded : (identOptNode e.search_desired.node (SearchParams.make fresh node limit sm).node
        && e.search_desired.limit == (SearchParams.make fresh node limit sm).limit
        && CompareArrays e.search_desired.searchmoves
            (SearchParams.make fresh node limit sm).searchmoves) = false) :
    e.set_search_desired cfg fresh now node limit sm =
      (if jsFalsyNat e.unresolved_stop_time
       then { e with search_desired := SearchParams.make fresh node limit sm,
                     last_send := some "stop", unresolved_stop_time := some now }
       else { e with search_desired := SearchParams.make fresh node limit sm,
                     last_send := some "stop" },
       [Event.stdin_write "stop", Event.log "--> stop"]) := by
  unfold Engine.set_search_desired
  simp only [hhs1, hhs2, Bool.not_true, Bool.false_or, Bool.or_self,
    Bool.false_eq_true, if_false, hded, hrun, if_true]
  unfold Engine.send
  simp [hexe, show jsStartsWith (jsTrim "stop") "setoption" = false from by decide,
    show jsStartsWith "stop" "setoption" = false from by decide,
    show jsTrim "stop" = "stop" from by decide]
  split <;> rfl

/-- Witness for the amended C2: the concrete Changing-state engine sends the
second stop and keeps its stop timestamp. -/
theorem c2_stop_replacement_witness :
    engW3.search_running.node.isSome = true
    ∧ engW3.unresolved_stop_time.isSome = true
    ∧ (engW3.set_search_desired cfgW 12 77 (some nodeW3) (some 1000) (some [])).2
        = [Event.stdin_write "stop", Event.log "--> stop"] :=
  ⟨by decide, by decide,
   by rw [c2_stop_replacement engW3 cfgW 12 77 (some nodeW3) (some 1000) (some [])
       rfl rfl rfl rfl (by decide)]⟩


theorem startsWith_head_ne {l p q : String} {c1 c2 : Char} {p2 q2 : List Char}
    (hp : p.data = c1 :: p2) (hq : q.data = c2 :: q2) (hne : (c2 == c1) = false)
    (h : jsStartsWith l p = true) : jsStartsWith l q = false := by
  unfold jsStartsWith at h
  unfold jsStartsWith
  obtain ⟨t, ht⟩ := isPrefixOf_ex h
  rw [ht, hp, hq, List.cons_append, List.isPrefixOf_cons₂, hne]
  rfl

theorem goWrites_append (a b : List Event) : goWrites (a ++ b) = goWrites a + goWrites b := by
  simp [goWrites, writesOf_append, List.countP_append]

theorem goWrites_nil : goWrites [] = 0 := rfl

theorem goWrites_cons_log (s : String) (evs : List Event) :
    goWrites (Event.log s :: evs) = goWrites evs := by
  simp [goWrites, writesOf_cons_log]

theorem goWrites_receive (l : String) (n : Option Node) :
    goWrites [Event.receive_bestmove l n] = 0 := rfl

theorem goWrites_send_not_go (e : Engine) (msg : String) (force : Bool)
    (h : jsStartsWith (jsTrim msg) "go" = false) :
    goWrites (e.send msg force).2 = 0 := by
  rw [goWrites, writesOf_send]
  split
  · rfl
  · split
    · simp [List.countP_cons, h]
    · rfl

theorem goWrites_drain_zero (e : Engine)
    (hq : ∀ l ∈ e.setoption_queue, jsStartsWith (jsTrim l) "setoption" = true) :
    goWrites (e.send_queued_setoptions).2 = 0 := by
  rw [goWrites, writesOf_drain]
  split
  · rw [List.countP_eq_zero]
    intro a ha
    rw [List.mem_map] at ha
    obtain ⟨l, hl, rfl⟩ := ha
    have h2 : jsStartsWith (jsTrim l) "go" = false :=
      startsWith_head_ne rfl rfl (by decide) (hq l hl)
    simp [h2]
  · rfl

theorem go_trim_position (c : Prop) [Decidable c] (setup mvs : String) :
    jsStartsWith
      (jsTrim (if c then "position " ++ setup
               else "position " ++ setup ++ " moves " ++ mvs)) "go" = false :=
  startsWith_head_ne rfl rfl (by decide)
    (startsWith_jsTrim_of _ _ (by decide) (by decide) (position_line_startsWith c setup mvs))

theorem setopt_trim_position (c : Prop) [Decidable c] (setup mvs : String) :
    jsStartsWith
      (jsTrim (if c then "position " ++ setup
               else "position " ++ setup ++ " moves " ++ mvs)) "setoption" = false :=
  startsWith_head_ne rfl rfl (by decide)
    (startsWith_jsTrim_of _ _ (by decide) (by decide) (position_line_startsWith c setup mvs))

theorem go_trim_goline (c1 : Prop) [Decidable c1] (n : Option Nat) (mt : Bool)
    (x y j : String) :
    jsStartsWith
      (jsTrim (if c1 then
                 (if jsFalsyNat n then "go infinite"
                  else if mt then "go movetime " ++ x else "go nodes " ++ y)
                   ++ " searchmoves" ++ j
               else
                 (if jsFalsyNat n then "go infinite"
                  else if mt then "go movetime " ++ x else "go nodes " ++ y))) "go" = true :=
  startsWith_jsTrim_of _ _ (by decide) (by decide)
    (go_line_wrap c1 _ _ _ (go_s0_startsWith n mt x y))

theorem setopt_trim_goline (c1 : Prop) [Decidable c1] (n : Option Nat) (mt : Bool)
    (x y j : String) :
    jsStartsWith
      (jsTrim (if c1 then
                 (if jsFalsyNat n then "go infinite"
                  else if mt then "go movetime " ++ x else "go nodes " ++ y)
                   ++ " searchmoves" ++ j
               else
                 (if jsFalsyNat n then "go infinite"
                  else if mt then "go movetime " ++ x else "go nodes " ++ y))) "setoption" = false :=
  startsWith_head_ne rfl rfl (by decide)
    (startsWith_jsTrim_of _ _ (by decide) (by decide)
      (go_line_wrap c1 _ _ _ (go_s0_startsWith n mt x y)))

theorem cycle_send_desired_ok (e : Engine) (cfg : Config)
    (hexe : e.exe = true) (hrun : e.search_running.node = none) :
    (e.send_desired_ok cfg).1.engine_cycle
        = e.engine_cycle + goWrites (e.send_desired_ok cfg).2
    ∧ (e.send_desired_ok cfg).1.engine_subcycle
        = e.engine_subcycle + goWrites (e.send_desired_ok cfg).2
    ∧ goWrites (e.send_desired_ok cfg).2 ≤ 1
    ∧ (goWrites (e.send_desired_ok cfg).2 = 1 →
        (e.send_desired_ok cfg).1.suppress_cycle_info = none) := by
  unfold Engine.send_desired_ok
  split
  · simp [goWrites_nil]
  · split
    · simp [goWrites_nil]
    · by_cases hlog : cfg.log_positions = true <;>
        simp only [hlog, if_true, Bool.false_eq_true, if_false, goWrites,
          writesOf_append, writesOf_cons_log, writesOf_log_singleton, writesOf_send,
          send_exe_proj, send_running_proj, send_desired_proj,
          (send_preserved _ _ _).2.1, (send_preserved _ _ _).2.2.1,
          hrun, hexe, Option.isSome_none, Bool.and_false, Bool.false_and,
          Bool.and_true, Bool.not_false, if_false, if_true,
          List.append_nil, List.nil_append, List.countP_cons, List.countP_nil,
          go_trim_position, go_trim_goline] <;>
        simp [go_trim_position, go_trim_goline, List.countP_cons,
          show writesOf [] = [] from rfl]

theorem goWrites_info_zero (e : Engine) (cfg : Config) (line : String) :
    goWrites (e.handle_info_line cfg line).2 = 0 := by
  unfold Engine.handle_info_line
  split <;> repeat' split
  all_goals simp [goWrites, writesOf]

theorem setoption_msg_not_go (a b : String) :
    jsStartsWith (jsTrim ("setoption name " ++ a ++ " value " ++ b)) "go" = false := by
  have h1 : jsStartsWith ("setoption name " ++ a ++ " value " ++ b) "setoption" = true :=
    jsStartsWith_append_of _ _ _
      (jsStartsWith_append_of _ _ _ (jsStartsWith_append_of _ _ _ (by decide)))
  have h2 : jsStartsWith (jsTrim ("setoption name " ++ a ++ " value " ++ b))
      "setoption" = true :=
    startsWith_jsTrim_of _ _ (by decide) (by decide) h1
  exact startsWith_head_ne rfl rfl (by decide) h2

theorem pressbutton_msg_not_go (a : String) :
    jsStartsWith (jsTrim ("setoption name " ++ a)) "go" = false := by
  have h2 : jsStartsWith (jsTrim ("setoption name " ++ a)) "setoption" = true :=
    startsWith_jsTrim_of _ _ (by decide) (by decide)
      (jsStartsWith_append_of _ _ _ (by decide))
  exact startsWith_head_ne rfl rfl (by decide) h2

theorem goWrites_drain2 (e : Engine) :
    goWrites (e.send_queued_setoptions).2 =
      if e.exe = true
      then (e.setoption_queue.map jsTrim).countP (fun l => jsStartsWith l "go")
      else 0 := by
  rw [goWrites, writesOf_drain]
  split <;> rfl

theorem cycle_drain_then_sd (E : Engine) (cfg : Config)
    (hexe : E.exe = true)
    (hq : ∀ l ∈ E.setoption_queue, jsStartsWith (jsTrim l) "setoption" = true)
    (hrun : E.search_running.node = none) :
    ((E.send_queued_setoptions).1.send_desired_ok cfg).1.engine_cycle
        = E.engine_cycle
          + goWrites ((E.send_queued_setoptions).1.send_desired_ok cfg).2
    ∧ ((E.send_queued_setoptions).1.send_desired_ok cfg).1.engine_subcycle
        = E.engine_subcycle
          + goWrites ((E.send_queued_setoptions).1.send_desired_ok cfg).2
    ∧ goWrites ((E.send_queued_setoptions).1.send_desired_ok cfg).2 ≤ 1 := by
  have hexe2 : (E.send_queued_setoptions).1.exe = true :=
    (drain_preserved E).1.trans hexe
  have hrun2 : (E.send_queued_setoptions).1.search_running.node = none := by
    rw [(drain_preserved E).2.2.2.1, hrun]
  have hc := cycle_send_desired_ok (E.send_queued_setoptions).1 cfg hexe2 hrun2
  exact ⟨hc.1.trans (by rw [(drain_preserved E).2.1]),
    hc.2.1.trans (by rw [(drain_preserved E).2.2.1]), hc.2.2.1⟩

/-- C7: across every driver operation, the engine cycle (and subcycle) grows
by exactly the number of `go` commands written during that operation — at most
one — and is otherwise untouched; inside `send_desired`, the one operation
that emits `go`, the write that increments the cycle also clears
`suppress_cycle_info`.  (Hypotheses: a subprocess is loaded, so `go` commands
reach stdin, and the queue is well-formed, holding only `setoption` lines, as
`send` guarantees.) -/
theorem c7_cycle_discipline (e : Engine) (cfg : Config) (hexe : e.exe = true)
    (hq : ∀ l ∈ e.setoption_queue, jsStartsWith (jsTrim l) "setoption" = true) :
    (∀ (fresh now : Nat) (node : Option Node) (limit : Option Nat)
        (sm : Option (List String)),
        (e.set_search_desired cfg fresh now node limit sm).1.engine_cycle
          = e.engine_cycle + goWrites (e.set_search_desired cfg fresh now node limit sm).2
        ∧ (e.set_search_desired cfg fresh now node limit sm).1.engine_subcycle
          = e.engine_subcycle + goWrites (e.set_search_desired cfg fresh now node limit sm).2
        ∧ goWrites (e.set_search_desired cfg fresh now node limit sm).2 ≤ 1)
    ∧ (∀ line : String,
        (e.handle_bestmove_line cfg line).1.engine_cycle
          = e.engine_cycle + goWrites (e.handle_bestmove_line cfg line).2
        ∧ (e.handle_bestmove_line cfg line).1.engine_subcycle
          = e.engine_subcycle + goWrites (e.handle_bestmove_line cfg line).2
        ∧ goWrites (e.handle_bestmove_line cfg line).2 ≤ 1)
    ∧ (∀ line : String,
        (e.handle_info_line cfg line).1.engine_cycle = e.engine_cycle
        ∧ (e.handle_info_line cfg line).1.engine_subcycle = e.engine_subcycle
        ∧ goWrites (e.handle_info_line cfg line).2 = 0)
    ∧ ((e.send_queued_setoptions).1.engine_cycle = e.engine_cycle
        ∧ (e.send_queued_setoptions).1.engine_subcycle = e.engine_subcycle
        ∧ goWrites (e.send_queued_setoptions).2 = 0)
    ∧ (∀ name value : String,
        (e.setoption name value).1.engine_cycle = e.engine_cycle
        ∧ goWrites (e.setoption name value).2 = 0)
    ∧ (∀ name : String,
        (e.pressbutton name).1.engine_cycle = e.engine_cycle
        ∧ goWrites (e.pressbutton name).2 = 0)
    ∧ ((e.send_ucinewgame).1.engine_cycle = e.engine_cycle
        ∧ goWrites (e.send_ucinewgame).2 = 0)
    ∧ (e.search_running.node = none →
        (e.send_desired_ok cfg).1.engine_cycle
          = e.engine_cycle + goWrites (e.send_desired_ok cfg).2
        ∧ (e.send_desired_ok cfg).1.engine_subcycle
          = e.engine_subcycle + goWrites (e.send_desired_ok cfg).2
        ∧ goWrites (e.send_desired_ok cfg).2 ≤ 1
        ∧ (goWrites (e.send_desired_ok cfg).2 = 1 →
            (e.send_desired_ok cfg).1.suppress_cycle_info = none)) := by
  refine ⟨?_, ?_, ?_, ?_, ?_, ?_, ?_, ?_⟩
  · intro fresh now node limit sm
    unfold Engine.set_search_desired
    by_cases hhs : (!e.ever_received_uciok || !e.ever_received_readyok) = true
    · simp [hhs, goWrites_nil]
    · by_cases hded : (identOptNode e.search_desired.node
            (SearchParams.make fresh node limit sm).node
          && e.search_desired.limit == (SearchParams.make fresh node limit sm).limit
          && CompareArrays e.search_desired.searchmoves
              (SearchParams.make fresh node limit sm).searchmoves) = true
      · simp [hhs, hded, goWrites_nil]
      · by_cases hrn : e.search_running.node.isSome = true
        · simp only [hhs, hded, hrn, Bool.false_eq_true, if_false, if_true]
          split <;>
            simp [goWrites_send_not_go _ "stop" _ (by decide),
              (send_preserved _ _ _).2.1, (send_preserved _ _ _).2.2.1]
        · have hrun2 : e.search_running.node = none := by
            cases h : e.search_running.node
            · rfl
            · rw [h] at hrn; exact absurd rfl hrn
          by_cases hdn : (SearchParams.make fresh node limit sm).node.isSome = true
          · simp only [hhs, hded, hrn, hdn, Bool.false_eq_true, if_false, if_true]
            have hc := cycle_send_desired_ok
              { e with search_desired := SearchParams.make fresh node limit sm } cfg
              hexe hrun2
            exact ⟨hc.1, hc.2.1, hc.2.2.1⟩
          · simp [hhs, hded, hrn, hdn, goWrites_nil]
  · intro line
    have hz : (e.setoption_queue.map jsTrim).countP (fun l => jsStartsWith l "go") = 0 := by
      rw [List.countP_eq_zero]
      intro a ha
      rw [List.mem_map] at ha
      obtain ⟨l, hl, rfl⟩ := ha
      have h2 : jsStartsWith (jsTrim l) "go" = false :=
        startsWith_head_ne rfl rfl (by decide) (hq l hl)
      simp [h2]
    have hz2 : (if e.exe = true
        then (e.setoption_queue.map jsTrim).countP (fun l => jsStartsWith l "go")
        else 0) = 0 := by
      rw [if_pos hexe]; exact hz
    have hgo : ∀ a ∈ e.setoption_queue, jsStartsWith (jsTrim a) "go" = false :=
      fun a ha => startsWith_head_ne rfl rfl (by decide) (hq a ha)
    have hz3 : List.countP ((fun l => jsStartsWith l "go") ∘ jsTrim)
        e.setoption_queue = 0 := by
      rw [List.countP_eq_zero]
      intro a ha
      simp [Function.comp, hgo a ha]
    unfold Engine.handle_bestmove_line
    by_cases hid : identSP e.search_desired e.search_running = true
    · by_cases hnode : e.search_running.node.isSome = true <;>
        simp [hid, hnode, goWrites_cons_log, goWrites_append, goWrites_receive,
          goWrites_drain2, hz2, hz3, hgo,
          (drain_preserved _).2.1, (drain_preserved _).2.2.1]
    · by_cases hdn : e.search_desired.node.isSome = true
      · have hc := cycle_drain_then_sd
          { e with search_completed := e.search_running,
                   search_running := NoSearch,
                   unresolved_stop_time := none } cfg hexe hq rfl
        simp only [hid, hdn, Bool.false_eq_true, if_false, if_true, Bool.or_self,
          Bool.not_true, Bool.or_false, Bool.false_or, Bool.and_self]
        simp only [goWrites_cons_log, goWrites_append, goWrites_drain2, hz2,
          Nat.zero_add]
        exact ⟨hc.1, hc.2.1, hc.2.2⟩
      · simp [hid, hdn, goWrites_cons_log, goWrites_append, goWrites_receive,
          goWrites_drain2, hz2, hz3, hgo,
          (drain_preserved _).2.1, (drain_preserved _).2.2.1]
  · intro line
    refine ⟨?_, ?_, goWrites_info_zero e cfg line⟩ <;>
      · unfold Engine.handle_info_line
        split <;> repeat' split
        all_goals rfl
  · exact ⟨(drain_preserved _).2.1, (drain_preserved _).2.2.1, goWrites_drain_zero _ hq⟩
  · intro name value
    exact ⟨(send_preserved _ _ _).2.1,
      goWrites_send_not_go _ _ _ (setoption_msg_not_go name value)⟩
  · intro name
    exact ⟨(send_preserved _ _ _).2.1,
      goWrites_send_not_go _ _ _ (pressbutton_msg_not_go name)⟩
  · unfold Engine.send_ucinewgame
    split
    · simp [goWrites_nil]
    · exact ⟨(send_preserved _ _ _).2.1,
        goWrites_send_not_go _ _ _ (by decide)⟩
  · intro hrun
    exact cycle_send_desired_ok e cfg hexe hrun


/-- Witness for C7: starting a fresh search increments the cycle by exactly
one, the count of `go` writes of the call. -/
theorem c7_cycle_discipline_witness :
    engW.exe = true
    ∧ (∀ l ∈ engW.setoption_queue, jsStartsWith (jsTrim l) "setoption" = true)
    ∧ (engW.set_search_desired cfgW 5 100 (some nodeW) (some 10000)
        (some [])).1.engine_cycle
        = engW.engine_cycle
          + goWrites (engW.set_search_desired cfgW 5 100 (some nodeW) (some 10000)
              (some [])).2
    ∧ goWrites (engW.set_search_desired cfgW 5 100 (some nodeW) (some 10000)
        (some [])).2 ≤ 1 :=
  ⟨rfl, by decide,
   ((c7_cycle_discipline engW cfgW rfl (by decide)).1 5 100 (some nodeW)
     (some 10000) (some [])).1,
   ((c7_cycle_discipline engW cfgW rfl (by decide)).1 5 100 (some nodeW)
     (some 10000) (some [])).2.2⟩

/-! ## C10: set_search_desired idempotence -/

theorem send_uciok_proj (e : Engine) (msg : String) (force : Bool) :
    (e.send msg force).1.ever_received_uciok = e.ever_received_uciok :=
  (send_preserved e msg force).2.2.2.2.2.2.2.1

theorem send_readyok_proj (e : Engine) (msg : String) (force : Bool) :
    (e.send msg force).1.ever_received_readyok = e.ever_received_readyok :=
  (send_preserved e msg force).2.2.2.2.2.2.2.2.1

theorem make_dedup_pair (f1 f2 : Nat) (node : Option Node) (limit : Option Nat)
    (sm : Option (List String)) :
    (identOptNode (SearchParams.make f1 node limit sm).node
        (SearchParams.make f2 node limit sm).node
      && (SearchParams.make f1 node limit sm).limit
          == (SearchParams.make f2 node limit sm).limit
      && CompareArrays (SearchParams.make f1 node limit sm).searchmoves
          (SearchParams.make f2 node limit sm).searchmoves) = true := by
  cases node <;> simp [SearchParams.make, identOptNode, CompareArrays, NoSearch]

theorem make_node_eq (f1 f2 : Nat) (node : Option Node) (limit : Option Nat)
    (sm : Option (List String)) :
    (SearchParams.make f1 node limit sm).node = (SearchParams.make f2 node limit sm).node := by
  cases node <;> rfl

theorem make_limit_eq (f1 f2 : Nat) (node : Option Node) (limit : Option Nat)
    (sm : Option (List String)) :
    (SearchParams.make f1 node limit sm).limit = (SearchParams.make f2 node limit sm).limit := by
  cases node <;> rfl

theorem make_moves_eq (f1 f2 : Nat) (node : Option Node) (limit : Option Nat)
    (sm : Option (List String)) :
    (SearchParams.make f1 node limit sm).searchmoves
      = (SearchParams.make f2 node limit sm).searchmoves := by
  cases node <;> rfl

theorem dedup_noop (e : Engine) (cfg : Config) (fresh now : Nat) (node : Option Node)
    (limit : Option Nat) (sm : Option (List String))
    (hhs1 : e.ever_received_uciok = true) (hhs2 : e.ever_received_readyok = true)
    (hded : (identOptNode e.search_desired.node (SearchParams.make fresh node limit sm).node
      && e.search_desired.limit == (SearchParams.make fresh node limit sm).limit
      && CompareArrays e.search_desired.searchmoves
          (SearchParams.make fresh node limit sm).searchmoves) = true) :
    e.set_search_desired cfg fresh now node limit sm = (e, []) := by
  unfold Engine.set_search_desired
  simp [hhs1, hhs2, hded]

/-- A `set_search_desired` for a destroyed or terminal node, issued on an idle
engine with no desired search, abandons immediately and changes nothing. -/
theorem noop_on_reset (E : Engine) (cfg : Config) (f now : Nat) (n : Node)
    (limit : Option Nat) (sm : Option (List String))
    (hhs1 : E.ever_received_uciok = true) (hhs2 : E.ever_received_readyok = true)
    (hdes : E.search_desired = NoSearch) (hrun : E.search_running = NoSearch)
    (hbad : (n.destroyed || n.terminal_reason != "") = true) :
    E.set_search_desired cfg f now (some n) limit sm = (E, []) := by
  obtain ⟨x1, x2, x3, x4, x5, x6, x7, x8, x9, x10, x11, x12, x13, x14, x15, x16⟩ := E
  simp only at hdes hrun hhs1 hhs2
  subst hdes hrun hhs1 hhs2
  unfold Engine.set_search_desired Engine.send_desired_ok
  simp [identOptNode, NoSearch, SearchParams.make, hbad]

/-- C10: after both handshakes, a `set_search_desired` call whose constructed
`SearchParams` agree with the current desired search (node by identity, limit
by equality, searchmoves element-wise) is a complete no-op: the state is
returned unchanged and no event is produced; consequently a second consecutive
call with the same arguments (same node object, limit and searchmoves, fresh
serial notwithstanding) is always such a no-op, so the outbound traffic of the
pair is emitted at most once, by the first call. -/
theorem c10_set_search_desired_idempotent (e : Engine) (cfg : Config) (node : Option Node)
    (limit : Option Nat) (sm : Option (List String))
    (hhs1 : e.ever_received_uciok = true) (hhs2 : e.ever_received_readyok = true) :
    (∀ fresh now : Nat,
      (identOptNode e.search_desired.node (SearchParams.make fresh node limit sm).node
        && e.search_desired.limit == (SearchParams.make fresh node limit sm).limit
        && CompareArrays e.search_desired.searchmoves
            (SearchParams.make fresh node limit sm).searchmoves) = true →
      e.set_search_desired cfg fresh now node limit sm = (e, []))
    ∧ (∀ f1 n1 f2 n2 : Nat,
        (e.set_search_desired cfg f1 n1 node limit sm).1.set_search_desired cfg
            f2 n2 node limit sm
          = ((e.set_search_desired cfg f1 n1 node limit sm).1, [])) := by
  constructor
  · intro fresh now hded
    exact dedup_noop e cfg fresh now node limit sm hhs1 hhs2 hded
  · intro f1 n1 f2 n2
    by_cases hded : (identOptNode e.search_desired.node
          (SearchParams.make f1 node limit sm).node
        && e.search_desired.limit == (SearchParams.make f1 node limit sm).limit
        && CompareArrays e.search_desired.searchmoves
            (SearchParams.make f1 node limit sm).searchmoves) = true
    · rw [dedup_noop e cfg f1 n1 node limit sm hhs1 hhs2 hded]
      refine dedup_noop e cfg f2 n2 node limit sm hhs1 hhs2 ?_
      rw [← make_node_eq f1 f2, ← make_limit_eq f1 f2, ← make_moves_eq f1 f2]
      exact hded
    · by_cases hrn : e.search_running.node.isSome = true
      · have hu : (e.set_search_desired cfg f1 n1 node limit sm).1.ever_received_uciok
            = true := by
          unfold Engine.set_search_desired
          simp only [hhs1, hhs2, hded, hrn, Bool.not_true, Bool.or_self,
            Bool.false_eq_true, if_false, if_true]
          split <;> simp [send_uciok_proj, hhs1]
        have hrd : (e.set_search_desired cfg f1 n1 node limit sm).1.ever_received_readyok
            = true := by
          unfold Engine.set_search_desired
          simp only [hhs1, hhs2, hded, hrn, Bool.not_true, Bool.or_self,
            Bool.false_eq_true, if_false, if_true]
          split <;> simp [send_readyok_proj, hhs2]
        have hde : (e.set_search_desired cfg f1 n1 node limit sm).1.search_desired
            = SearchParams.make f1 node limit sm := by
          unfold Engine.set_search_desired
          simp only [hhs1, hhs2, hded, hrn, Bool.not_true, Bool.or_self,
            Bool.false_eq_true, if_false, if_true]
          split <;> simp [send_desired_proj]
        refine dedup_noop _ cfg f2 n2 node limit sm hu hrd ?_
        rw [hde]
        exact make_dedup_pair f1 f2 node limit sm
      · cases hnd : node with
        | none =>
          rw [hnd] at hded
          have hr : e.set_search_desired cfg f1 n1 none limit sm
              = ({ e with search_desired := SearchParams.make f1 none limit sm }, []) := by
            unfold Engine.set_search_desired
            simp only [hhs1, hhs2, hded, hrn, Bool.not_true, Bool.or_self,
              Bool.false_eq_true, if_false, if_true]
            rfl
          rw [hr]
          refine dedup_noop _ cfg f2 n2 none limit sm hhs1 hhs2 ?_
          exact make_dedup_pair f1 f2 none limit sm
        | some n =>
          rw [hnd] at hded
          by_cases hbad : (n.destroyed || n.terminal_reason != "") = true
          · have hr : e.set_search_desired cfg f1 n1 (some n) limit sm
                = ({ e with search_desired := NoSearch, search_running := NoSearch }, []) := by
              unfold Engine.set_search_desired Engine.send_desired_ok
              simp only [hhs1, hhs2, hded, hrn, Bool.not_true, Bool.or_self,
                Bool.false_eq_true, if_false, if_true]
              simp [SearchParams.make, hbad]
            rw [hr]
            exact noop_on_reset _ cfg f2 n2 n limit sm hhs1 hhs2 rfl rfl hbad
          · have hu : (e.set_search_desired cfg f1 n1 (some n) limit
                sm).1.ever_received_uciok = true := by
              unfold Engine.set_search_desired Engine.send_desired_ok
              simp only [hhs1, hhs2, hded, hrn, Bool.not_true, Bool.or_self,
                Bool.false_eq_true, if_false, if_true]
              simp [SearchParams.make, hbad, send_uciok_proj, hhs1]
            have hrd : (e.set_search_desired cfg f1 n1 (some n) limit
                sm).1.ever_received_readyok = true := by
              unfold Engine.set_search_desired Engine.send_desired_ok
              simp only [hhs1, hhs2, hded, hrn, Bool.not_true, Bool.or_self,
                Bool.false_eq_true, if_false, if_true]
              simp [SearchParams.make, hbad, send_readyok_proj, hhs2]
            have hde : (e.set_search_desired cfg f1 n1 (some n) limit sm).1.search_desired
                = SearchParams.make f1 (some n) limit sm := by
              unfold Engine.set_search_desired Engine.send_desired_ok
              simp only [hhs1, hhs2, hded, hrn, Bool.not_true, Bool.or_self,
                Bool.false_eq_true, if_false, if_true]
              simp [SearchParams.make, hbad, send_desired_proj, SearchParams.make]
            refine dedup_noop _ cfg f2 n2 (some n) limit sm hu hrd ?_
            rw [hde]
            exact make_dedup_pair f1 f2 (some n) limit sm


/-- Witness for C10: repeating a search request changes nothing and emits
nothing the second time. -/
theorem c10_set_search_desired_idempotent_witness :
    engW.ever_received_uciok = true
    ∧ engW.ever_received_readyok = true
    ∧ (engW.set_search_desired cfgW 5 1 (some nodeW) (some 10000)
          (some ["e2e4"])).1.set_search_desired cfgW 6 2 (some nodeW) (some 10000)
          (some ["e2e4"])
        = ((engW.set_search_desired cfgW 5 1 (some nodeW) (some 10000)
            (some ["e2e4"])).1, []) :=
  ⟨rfl, rfl,
   (c10_set_search_desired_idempotent engW cfgW (some nodeW) (some 10000)
     (some ["e2e4"]) rfl rfl).2 5 1 6 2⟩

end Nibbler
